import Mathlib

/-!
Verification development for the ChromeVox document-navigation engine:
the layout-line walker (`cvox.LayoutLineWalker`), the user-command layer
(`cvox.ChromeVoxUserCommands`) and its predicate search helpers.

Shallow embedding conventions:
 - a document is a finite sequence of structural lines with a geometry
   oracle giving each line's bounding-rectangle `bottom`;
 - cursors are `(node, idx)` pairs over structural-line nodes;
 - JavaScript `null` becomes `Option.none`; a JavaScript member access on
   `null` (a thrown TypeError) becomes `Except.error`.
-/

/-- Modelled from the spec: a cursor is a `(node, index)` pair compared in
document order (`cvox.Cursor` is not among the provided sources).
Node `i` is the `i`-th structural line; `idx` is the offset inside it
(`0` = line start, `1` = line end in this abstraction). -/
structure Cursor where
  node : Nat
  idx : Nat
deriving DecidableEq

/-- Modelled from the spec: document-order comparison of cursors,
negative when the first cursor precedes the second. -/
def Cursor.cmp (a b : Cursor) : Int :=
  if a.node < b.node then -1
  else if b.node < a.node then 1
  else if a.idx < b.idx then -1
  else if b.idx < a.idx then 1
  else 0

/-- Modelled from the spec: `cvox.CursorSelection` (not among the provided
sources).  `start` and `end_` are the *directed* endpoints: for a reversed
selection `start` comes after `end_` in document order, so that `end_` is
always the endpoint the selection is moving toward (the spec's
`collapseToEnd` collapses to the directional endpoint `end_`). -/
structure CursorSelection where
  start : Cursor
  end_ : Cursor
  reversed : Bool
deriving DecidableEq

/-- Modelled from the spec: the `cvox.CursorSelection` constructor.  The
endpoints are normalized to the directed order dictated by `reversed`:
swapped when they disagree with the direction. -/
def CursorSelection.mk' (s e : Cursor) (r : Bool) : CursorSelection :=
  if (r = true ∧ s.cmp e < 0) ∨ (r = false ∧ e.cmp s < 0) then ⟨e, s, r⟩
  else ⟨s, e, r⟩

/-- Modelled from the spec: `setReversed` keeps the denoted range and
records the new direction, swapping the directed endpoints when the
direction changes. -/
def CursorSelection.setReversed (sel : CursorSelection) (r : Bool) : CursorSelection :=
  if r = sel.reversed then sel else ⟨sel.end_, sel.start, r⟩

/-- Absolute (document-order) start of a selection, disregarding direction. -/
def CursorSelection.absStart (sel : CursorSelection) : Cursor :=
  if sel.reversed then sel.end_ else sel.start

/-- Absolute (document-order) end of a selection, disregarding direction. -/
def CursorSelection.absEnd (sel : CursorSelection) : Cursor :=
  if sel.reversed then sel.start else sel.end_

/-- Modelled from the spec: two selections are absolute-equal when they
denote the same document range disregarding `reversed`. -/
def CursorSelection.absEquals (a b : CursorSelection) : Bool :=
  a.absStart = b.absStart ∧ a.absEnd = b.absEnd

/-- A document for the layout-line walker: `n` structural lines, a geometry
oracle `bottom` giving each structural line's bounding-rectangle bottom
coordinate, and the substrategy's description/braille output (the
structural-line walker's `getDescription`/`getBraille` are not among the
provided sources, so their per-line output is carried as opaque data,
modelled from the spec). -/
structure LayoutDoc where
  n : Nat
  bottom : Nat → Int
  subDesc : CursorSelection → CursorSelection → List String := fun _ _ => []
  subBrailleText : CursorSelection → CursorSelection → String := fun _ _ => ""
  subValueSpanStart : CursorSelection → CursorSelection → Option Nat := fun _ _ => none
  editable : Nat → Bool := fun _ => false
  selectionStart : Nat → Nat := fun _ => 0
  selectionEnd : Nat → Nat := fun _ => 0

/-- The structural-line selection of line `i`: from the line's start to the
line's end, not reversed. -/
def structLineSel (i : Nat) : CursorSelection :=
  ⟨⟨i, 0⟩, ⟨i, 1⟩, false⟩

/-- Modelled from the spec: `cvox.StructuralLineWalker.sync` (not among the
provided sources) — maps a selection to the structural line containing its
directed start, keeping the direction; `none` when the node is not in the
document. -/
def structSync (d : LayoutDoc) (sel : CursorSelection) : Option CursorSelection :=
  if sel.start.node < d.n then
    some ((structLineSel sel.start.node).setReversed sel.reversed)
  else none

/-- Modelled from the spec: `cvox.StructuralLineWalker.next` (not among the
provided sources) — the adjacent structural line in the direction implied
by `reversed`, `none` at the document boundary. -/
def structNext (d : LayoutDoc) (sel : CursorSelection) : Option CursorSelection :=
  if sel.reversed then
    if sel.end_.node = 0 then none
    else some ((structLineSel (sel.end_.node - 1)).setReversed true)
  else
    if sel.end_.node + 1 < d.n then some (structLineSel (sel.end_.node + 1))
    else none

/-- Geometry oracle applied to a structural-line selection:
`sel.getRange().getBoundingClientRect().bottom` — the bounding-rectangle
bottom of the selection's line. -/
def rectBottom (d : LayoutDoc) (sel : CursorSelection) : Int :=
  d.bottom sel.end_.node

/-- `cvox.LayoutLineWalker.prototype.isVisualLineBreak_`: two selections lie
on different visual lines exactly when their bounding-rectangle bottoms
differ (exact comparison, no epsilon). -/
def isVisualLineBreak (d : LayoutDoc) (lSel rSel : CursorSelection) : Bool :=
  rectBottom d lSel != rectBottom d rSel

/-- The do/while loop of `cvox.LayoutLineWalker.prototype.extend_`: from
`e`, repeatedly advance the substrategy and keep merging while the new
sub-selection is not across a visual line break; return the last merged
sub-selection. -/
def extendAux (d : LayoutDoc) (e : CursorSelection) : CursorSelection :=
  match h : structNext d e with
  | none => e
  | some nx => if isVisualLineBreak d e nx then e else extendAux d nx
termination_by (if e.reversed then e.end_.node else d.n - e.end_.node)
decreasing_by
  simp only [structNext] at h
  by_cases hr : e.reversed
  · rw [if_pos hr] at h
    by_cases h0 : e.end_.node = 0
    · rw [if_pos h0] at h; exact absurd h (by simp)
    · rw [if_neg h0] at h
      have hnx : nx = (structLineSel (e.end_.node - 1)).setReversed true :=
        (Option.some.injEq _ _ ▸ h).symm
      subst hnx
      simp only [structLineSel, CursorSelection.setReversed, hr]
      norm_num
      omega
  · rw [if_neg hr] at h
    by_cases hlt : e.end_.node + 1 < d.n
    · rw [if_pos hlt] at h
      have hnx : nx = structLineSel (e.end_.node + 1) :=
        (Option.some.injEq _ _ ▸ h).symm
      subst hnx
      simp only [structLineSel, hr]
      norm_num
      omega
    · rw [if_neg hlt] at h; exact absurd h (by simp)

/-- `cvox.LayoutLineWalker.prototype.extend_`: extend `start` up to just
before the next visual line break; the result spans from `start`'s directed
start to the last merged sub-selection's directed end. -/
def extend_ (d : LayoutDoc) (start : CursorSelection) : CursorSelection :=
  let e := extendAux d start
  CursorSelection.mk' start.start e.end_ start.reversed

/-- `cvox.LayoutLineWalker.prototype.next`: collapse to the directed end,
sync the substrategy there, advance the substrategy once, extend in the
original direction, and normalize the result with `setReversed(false)`. -/
def LayoutLineWalker.next (d : LayoutDoc) (sel : CursorSelection) : Option CursorSelection :=
  let endSel := CursorSelection.mk' sel.end_ sel.end_ sel.reversed
  match structSync d endSel with
  | none => none
  | some _ =>
    match structNext d endSel with
    | none => none
    | some start =>
      some ((extend_ d (start.setReversed sel.reversed)).setReversed false)

/-- `cvox.LayoutLineWalker.prototype.sync`: sync the substrategy, extend to
both line breaks (in each direction), and span from the one extension's
directed end to the other's, with the input's direction. -/
def LayoutLineWalker.sync (d : LayoutDoc) (sel : CursorSelection) : Option CursorSelection :=
  match structSync d sel with
  | none => none
  | some line =>
    let e := extend_ d line
    let s := extend_ d (line.setReversed (!line.reversed))
    some (CursorSelection.mk' s.end_ e.end_ sel.reversed)

/-- Index-level reading of the forward merge loop: the last structural line
of the layout line that starts at line `k`, i.e. the end of the maximal run
of consecutive lines whose bounding-rectangle bottoms all equal the bottom
of the line before them in the chain. -/
def fwdEnd (d : LayoutDoc) (k : Nat) : Nat :=
  if k + 1 < d.n ∧ d.bottom (k + 1) = d.bottom k then fwdEnd d (k + 1) else k
termination_by d.n - k
decreasing_by omega

/-- Index-level reading of the backward merge loop: the first structural
line of the layout line that ends at line `k`. -/
def bwdStart (d : LayoutDoc) (k : Nat) : Nat :=
  if 0 < k ∧ d.bottom (k - 1) = d.bottom k then bwdStart d (k - 1) else k
termination_by k
decreasing_by omega

/-- The while loop of `cvox.LayoutLineWalker.prototype.getDescription`:
accumulate the substrategy's descriptions line by line until the current
sub-selection's directed end reaches `stop`; when the substrategy runs out
before `stop` is reached, the final conditional append is skipped. -/
def descLoop (d : LayoutDoc) (stop : Cursor) (prev cur : CursorSelection) : List String :=
  if cur.end_ = stop then d.subDesc prev cur
  else
    match h : structNext d cur with
    | none => d.subDesc prev cur
    | some nx => d.subDesc prev cur ++ descLoop d stop cur nx
termination_by (if cur.reversed then cur.end_.node else d.n - cur.end_.node)
decreasing_by
  simp only [structNext] at h
  by_cases hr : cur.reversed
  · rw [if_pos hr] at h
    by_cases h0 : cur.end_.node = 0
    · rw [if_pos h0] at h; exact absurd h (by simp)
    · rw [if_neg h0] at h
      have hnx : nx = (structLineSel (cur.end_.node - 1)).setReversed true :=
        (Option.some.injEq _ _ ▸ h).symm
      subst hnx
      simp only [structLineSel, CursorSelection.setReversed, hr]
      norm_num
      omega
  · rw [if_neg hr] at h
    by_cases hlt : cur.end_.node + 1 < d.n
    · rw [if_pos hlt] at h
      have hnx : nx = structLineSel (cur.end_.node + 1) :=
        (Option.some.injEq _ _ ▸ h).symm
      subst hnx
      simp only [structLineSel, hr]
      norm_num
      omega
    · rw [if_neg hlt] at h; exact absurd h (by simp)

/-- `cvox.LayoutLineWalker.prototype.getDescription`: sync the substrategy
at the absolute start (empty on failure), delegate to the substrategy when
the absolute range stays on a single node, otherwise walk the substrategy
from the absolute start to the absolute end concatenating sub-descriptions. -/
def LayoutLineWalker.getDescription (d : LayoutDoc) (prevSel sel : CursorSelection) :
    List String :=
  let absSel := sel.setReversed false
  match structSync d (CursorSelection.mk' absSel.start absSel.start false) with
  | none => []
  | some cur =>
    if absSel.start.node = absSel.end_.node then d.subDesc prevSel sel
    else descLoop d absSel.end_ prevSel cur

/-- Modelled from the spec: a braille line with span annotations
(`cvox.NavBraille` is not among the provided sources) — text, spans mapping
sub-ranges back to source nodes, and an optional caret
`[startIndex, endIndex)`. -/
structure NavBraille where
  text : String
  spans : List (Nat × Nat × Nat)
  startIndex : Option Nat
  endIndex : Option Nat
deriving DecidableEq

/-- The empty braille line `new cvox.NavBraille(\x7b\x7d)`. -/
def emptyNavBraille : NavBraille := ⟨"", [], none, none⟩

/-- Modelled from the spec: `cvox.BrailleUtil.ITEM_SEPARATOR` (not among
the provided sources) — the separator inserted between braille segments. -/
def itemSeparator : String := " "

/-- `cvox.LayoutLineWalker.prototype.appendBraille_`: append one
sub-selection's braille to the accumulated line, recording a span for its
source node, and place the caret when `cur` is absolute-equal to `sel`
(with the editable-text adjustment by the node's live selection offsets). -/
def appendBraille (d : LayoutDoc) (prevSel sel cur : CursorSelection)
    (braille : NavBraille) : NavBraille :=
  let item := d.subBrailleText prevSel cur
  let vss := d.subValueSpanStart prevSel cur
  let text1 := if braille.text.length > 0 then braille.text ++ itemSeparator else braille.text
  let spanStart := text1.length
  let spanEnd := spanStart + item.length
  let text2 := text1 ++ item
  let spans2 := braille.spans ++ [(cur.start.node, spanStart, spanEnd)]
  if cur.absEquals sel then
    match vss with
    | some v =>
      if d.editable cur.start.node then
        { text := text2, spans := spans2,
          startIndex := some (spanStart + v + d.selectionStart cur.start.node),
          endIndex := some (spanStart + v + d.selectionEnd cur.start.node) }
      else
        { text := text2, spans := spans2,
          startIndex := some spanStart, endIndex := some (spanStart + 1) }
    | none =>
        { text := text2, spans := spans2,
          startIndex := some spanStart, endIndex := some (spanStart + 1) }
  else
    { text := text2, spans := spans2,
      startIndex := braille.startIndex, endIndex := braille.endIndex }

/-- The while loop of `cvox.LayoutLineWalker.prototype.getBraille`: append
braille line by line until the current sub-selection's directed end reaches
`stop`; when the substrategy runs out first, the final conditional append
is skipped. -/
def brailleLoop (d : LayoutDoc) (stop : Cursor) (prevSel absSel cur : CursorSelection)
    (braille : NavBraille) : NavBraille :=
  if cur.end_ = stop then appendBraille d prevSel absSel cur braille
  else
    let b1 := appendBraille d prevSel absSel cur braille
    match h : structNext d cur with
    | none => b1
    | some nx => brailleLoop d stop cur absSel nx b1
termination_by (if cur.reversed then cur.end_.node else d.n - cur.end_.node)
decreasing_by
  simp only [structNext] at h
  by_cases hr : cur.reversed
  · rw [if_pos hr] at h
    by_cases h0 : cur.end_.node = 0
    · rw [if_pos h0] at h; exact absurd h (by simp)
    · rw [if_neg h0] at h
      have hnx : nx = (structLineSel (cur.end_.node - 1)).setReversed true :=
        (Option.some.injEq _ _ ▸ h).symm
      subst hnx
      simp only [structLineSel, CursorSelection.setReversed, hr]
      norm_num
      omega
  · rw [if_neg hr] at h
    by_cases hlt : cur.end_.node + 1 < d.n
    · rw [if_pos hlt] at h
      have hnx : nx = structLineSel (cur.end_.node + 1) :=
        (Option.some.injEq _ _ ▸ h).symm
      subst hnx
      simp only [structLineSel, hr]
      norm_num
      omega
    · rw [if_neg hlt] at h; exact absurd h (by simp)

/-- `cvox.LayoutLineWalker.prototype.getBraille`.  The source computes
`this.sync(sel).setReversed(false)` with no null check before the member
call, so when `sync` returns null a TypeError is thrown; that thrown
exception is the `Except.error` case. -/
def LayoutLineWalker.getBraille (d : LayoutDoc) (prevSel sel : CursorSelection) :
    Except Unit NavBraille :=
  let braille := emptyNavBraille
  let absSelOpt := structSync d (sel.setReversed false)
  match LayoutLineWalker.sync d sel with
  | none => Except.error ()
  | some ls =>
    let layoutSel := ls.setReversed false
    match absSelOpt with
    | none => Except.ok braille
    | some absSel =>
      match structSync d (CursorSelection.mk' layoutSel.start layoutSel.start false) with
      | none => Except.ok braille
      | some cur => Except.ok (brailleLoop d layoutSel.end_ prevSel absSel cur braille)

/-- Repeated application of the layout-line walker's `next`, with a failed
move propagating as failure. -/
def nextIter (d : LayoutDoc) : Nat → CursorSelection → Option CursorSelection
  | 0, s => some s
  | k + 1, s =>
    match LayoutLineWalker.next d s with
    | none => none
    | some s' => nextIter d k s'

/-- The document of the spec's layout-line merge example: three structural
lines with bounding-rectangle bottoms 10, 10, 20. -/
def demoDoc : LayoutDoc where
  n := 3
  bottom := fun i => if i = 0 then 10 else if i = 1 then 10 else 20

lemma Cursor.cmp_lt_iff (c d : Cursor) :
    c.cmp d < 0 ↔ (c.node < d.node ∨ (c.node = d.node ∧ c.idx < d.idx)) := by
  unfold Cursor.cmp
  split_ifs <;> simp <;> omega

@[simp] lemma structLineSel_start (i : Nat) : (structLineSel i).start = ⟨i, 0⟩ := rfl

@[simp] lemma structLineSel_end (i : Nat) : (structLineSel i).end_ = ⟨i, 1⟩ := rfl

@[simp] lemma structLineSel_reversed (i : Nat) : (structLineSel i).reversed = false := rfl

@[simp] lemma structLineSel_setRev_false (i : Nat) :
    (structLineSel i).setReversed false = structLineSel i := rfl

@[simp] lemma structLineSel_setRev_true (i : Nat) :
    (structLineSel i).setReversed true = ⟨⟨i, 1⟩, ⟨i, 0⟩, true⟩ := rfl

@[simp] lemma setReversed_reversed (sel : CursorSelection) (r : Bool) :
    (sel.setReversed r).reversed = r := by
  unfold CursorSelection.setReversed
  split
  · next h => exact h.symm
  · rfl

lemma mk'_fwd (a b : Cursor) (h : ¬ b.cmp a < 0) :
    CursorSelection.mk' a b false = ⟨a, b, false⟩ := by
  unfold CursorSelection.mk'
  rw [if_neg]
  rintro (⟨hc, _⟩ | ⟨_, hc⟩)
  · exact absurd hc (by simp)
  · exact h hc

lemma mk'_bwd (a b : Cursor) (h : ¬ a.cmp b < 0) :
    CursorSelection.mk' a b true = ⟨a, b, true⟩ := by
  unfold CursorSelection.mk'
  rw [if_neg]
  rintro (⟨_, hc⟩ | ⟨hc, _⟩)
  · exact h hc
  · exact absurd hc (by simp)

@[simp] lemma mk'_collapsed (a : Cursor) (r : Bool) :
    CursorSelection.mk' a a r = ⟨a, a, r⟩ := by
  unfold CursorSelection.mk'
  rw [if_neg]
  have : ¬ a.cmp a < 0 := by rw [Cursor.cmp_lt_iff]; omega
  rintro (⟨_, hc⟩ | ⟨_, hc⟩) <;> exact this hc

lemma fwdEnd_spec (d : LayoutDoc) (k : Nat) :
    k ≤ fwdEnd d k ∧
    (k < d.n → fwdEnd d k < d.n) ∧
    (∀ m, k ≤ m → m < fwdEnd d k → d.bottom (m + 1) = d.bottom m) ∧
    ¬(fwdEnd d k + 1 < d.n ∧ d.bottom (fwdEnd d k + 1) = d.bottom (fwdEnd d k)) := by
  have H : ∀ fuel k, d.n ≤ k + fuel →
      k ≤ fwdEnd d k ∧
      (k < d.n → fwdEnd d k < d.n) ∧
      (∀ m, k ≤ m → m < fwdEnd d k → d.bottom (m + 1) = d.bottom m) ∧
      ¬(fwdEnd d k + 1 < d.n ∧ d.bottom (fwdEnd d k + 1) = d.bottom (fwdEnd d k)) := by
    intro fuel
    induction fuel with
    | zero =>
      intro k hk
      have h2 : fwdEnd d k = k := by rw [fwdEnd]; exact if_neg (by omega)
      rw [h2]
      exact ⟨le_rfl, by omega, by omega, by omega⟩
    | succ f ih =>
      intro k hk
      by_cases hc : k + 1 < d.n ∧ d.bottom (k + 1) = d.bottom k
      · have h2 : fwdEnd d k = fwdEnd d (k + 1) := by rw [fwdEnd]; exact if_pos hc
        obtain ⟨ih1, ih2, ih3, ih4⟩ := ih (k + 1) (by omega)
        rw [h2]
        refine ⟨by omega, fun _ => ih2 hc.1, ?_, ih4⟩
        intro m hm1 hm2
        rcases Nat.eq_or_lt_of_le hm1 with rfl | hm3
        · exact hc.2
        · exact ih3 m (by omega) hm2
      · have h2 : fwdEnd d k = k := by rw [fwdEnd]; exact if_neg hc
        rw [h2]
        exact ⟨le_rfl, fun h => h, by omega, hc⟩
  exact H d.n k (by omega)

lemma bwdStart_le (d : LayoutDoc) (k : Nat) : bwdStart d k ≤ k := by
  induction k using Nat.strong_induction_on with
  | _ k ih =>
    rw [bwdStart]
    split
    · next hc => exact le_trans (ih (k - 1) (by omega)) (by omega)
    · exact le_rfl

lemma extendAux_fwd (d : LayoutDoc) (k : Nat) :
    extendAux d (structLineSel k) = structLineSel (fwdEnd d k) := by
  have H : ∀ fuel k, d.n ≤ k + fuel →
      extendAux d (structLineSel k) = structLineSel (fwdEnd d k) := by
    intro fuel
    induction fuel with
    | zero =>
      intro k hk
      have h1 : structNext d (structLineSel k) = none := by
        simp only [structNext, structLineSel]
        norm_num
        omega
      have h2 : fwdEnd d k = k := by rw [fwdEnd]; exact if_neg (by omega)
      rw [extendAux.eq_def, h2]
      split
      · rfl
      · next nx heq => rw [h1] at heq; exact absurd heq (by simp)
    | succ f ih =>
      intro k hk
      by_cases hlt : k + 1 < d.n
      · have hnext : structNext d (structLineSel k) = some (structLineSel (k + 1)) := by
          simp only [structNext, structLineSel]
          norm_num [hlt]
        by_cases heqb : d.bottom (k + 1) = d.bottom k
        · have hbr : isVisualLineBreak d (structLineSel k) (structLineSel (k + 1)) = false := by
            simp [isVisualLineBreak, rectBottom, heqb]
          have h2 : fwdEnd d k = fwdEnd d (k + 1) := by
            rw [fwdEnd]; exact if_pos ⟨hlt, heqb⟩
          rw [extendAux.eq_def]
          split
          · next heq => rw [hnext] at heq; exact absurd heq (by simp)
          · next nx heq =>
            rw [hnext] at heq
            have hnx := Option.some.inj heq
            rw [← hnx, hbr]
            simp only [Bool.false_eq_true, if_false]
            rw [h2]
            exact ih (k + 1) (by omega)
        · have hbr : isVisualLineBreak d (structLineSel k) (structLineSel (k + 1)) = true := by
            simp [isVisualLineBreak, rectBottom]
            exact fun h => heqb h.symm
          have h2 : fwdEnd d k = k := by
            rw [fwdEnd]; exact if_neg (fun h => heqb h.2)
          rw [extendAux.eq_def, h2]
          split
          · rfl
          · next nx heq =>
            rw [hnext] at heq
            have hnx := Option.some.inj heq
            rw [← hnx, hbr]
            simp
      · have h1 : structNext d (structLineSel k) = none := by
          simp only [structNext, structLineSel]
          norm_num
          omega
        have h2 : fwdEnd d k = k := by rw [fwdEnd]; exact if_neg (by omega)
        rw [extendAux.eq_def, h2]
        split
        · rfl
        · next nx heq => rw [h1] at heq; exact absurd heq (by simp)
  exact H d.n k (by omega)

lemma extendAux_bwd (d : LayoutDoc) (k : Nat) :
    extendAux d ((structLineSel k).setReversed true) =
      (structLineSel (bwdStart d k)).setReversed true := by
  induction k using Nat.strong_induction_on with
  | _ k ih =>
    by_cases h0 : k = 0
    · subst h0
      have h1 : structNext d ((structLineSel 0).setReversed true) = none := by
        simp [structNext, CursorSelection.setReversed, structLineSel]
      have h2 : bwdStart d 0 = 0 := by rw [bwdStart]; exact if_neg (by omega)
      rw [extendAux.eq_def, h2]
      split
      · rfl
      · next nx heq => rw [h1] at heq; exact absurd heq (by simp)
    · have hnext : structNext d ((structLineSel k).setReversed true) =
          some ((structLineSel (k - 1)).setReversed true) := by
        simp [structNext, CursorSelection.setReversed, structLineSel, h0]
      by_cases heqb : d.bottom (k - 1) = d.bottom k
      · have hbr : isVisualLineBreak d ((structLineSel k).setReversed true)
            ((structLineSel (k - 1)).setReversed true) = false := by
          simp [isVisualLineBreak, rectBottom, CursorSelection.setReversed, structLineSel,
            heqb.symm]
        have h2 : bwdStart d k = bwdStart d (k - 1) := by
          rw [bwdStart]; exact if_pos ⟨by omega, heqb⟩
        rw [extendAux.eq_def]
        split
        · next heq => rw [hnext] at heq; exact absurd heq (by simp)
        · next nx heq =>
          rw [hnext] at heq
          have hnx := Option.some.inj heq
          rw [← hnx, hbr]
          simp only [Bool.false_eq_true, if_false]
          rw [h2]
          exact ih (k - 1) (by omega)
      · have hbr : isVisualLineBreak d ((structLineSel k).setReversed true)
            ((structLineSel (k - 1)).setReversed true) = true := by
          simp [isVisualLineBreak, rectBottom, CursorSelection.setReversed, structLineSel]
          exact fun h => heqb h.symm
        have h2 : bwdStart d k = k := by
          rw [bwdStart]; exact if_neg (fun h => heqb h.2)
        rw [extendAux.eq_def, h2]
        split
        · rfl
        · next nx heq =>
          rw [hnext] at heq
          have hnx := Option.some.inj heq
          rw [← hnx, hbr]
          simp
@[simp] lemma revLineSel_setRev_false (i : Nat) :
    (⟨⟨i, 1⟩, ⟨i, 0⟩, true⟩ : CursorSelection).setReversed false = structLineSel i := rfl

@[simp] lemma revLineSel_setRev_true (i : Nat) :
    (⟨⟨i, 1⟩, ⟨i, 0⟩, true⟩ : CursorSelection).setReversed true =
      ⟨⟨i, 1⟩, ⟨i, 0⟩, true⟩ := rfl

lemma extend_fwd (d : LayoutDoc) (k : Nat) :
    extend_ d (structLineSel k) = ⟨⟨k, 0⟩, ⟨fwdEnd d k, 1⟩, false⟩ := by
  have hk := (fwdEnd_spec d k).1
  unfold extend_
  rw [extendAux_fwd]
  simp only [structLineSel_start, structLineSel_end, structLineSel_reversed]
  rw [mk'_fwd]
  rw [Cursor.cmp_lt_iff]
  simp only [not_or, not_and, not_lt]
  omega

lemma extend_bwd (d : LayoutDoc) (k : Nat) :
    extend_ d (⟨⟨k, 1⟩, ⟨k, 0⟩, true⟩ : CursorSelection) =
      ⟨⟨k, 1⟩, ⟨bwdStart d k, 0⟩, true⟩ := by
  have hk := bwdStart_le d k
  have hlit : (⟨⟨k, 1⟩, ⟨k, 0⟩, true⟩ : CursorSelection) =
      (structLineSel k).setReversed true := rfl
  rw [hlit]
  unfold extend_
  rw [extendAux_bwd]
  simp only [structLineSel_setRev_true]
  rw [mk'_bwd]
  rw [Cursor.cmp_lt_iff]
  simp only [not_or, not_and, not_lt]
  omega

lemma sync_char (d : LayoutDoc) (sel : CursorSelection) (h : sel.start.node < d.n) :
    LayoutLineWalker.sync d sel =
      some (if sel.reversed then
              ⟨⟨fwdEnd d sel.start.node, 1⟩, ⟨bwdStart d sel.start.node, 0⟩, true⟩
            else
              ⟨⟨bwdStart d sel.start.node, 0⟩, ⟨fwdEnd d sel.start.node, 1⟩, false⟩) := by
  have hb := bwdStart_le d sel.start.node
  have hf := (fwdEnd_spec d sel.start.node).1
  cases hrev : sel.reversed with
  | false =>
    have hs : structSync d sel = some (structLineSel sel.start.node) := by
      simp [structSync, h, hrev]
    simp only [LayoutLineWalker.sync, hs, structLineSel_reversed, Bool.not_false,
      structLineSel_setRev_true, extend_fwd, extend_bwd, hrev]
    rw [mk'_fwd]
    · simp
    · rw [Cursor.cmp_lt_iff]
      simp only [not_or, not_and, not_lt]
      omega
  | true =>
    have hs : structSync d sel =
        some (⟨⟨sel.start.node, 1⟩, ⟨sel.start.node, 0⟩, true⟩ : CursorSelection) := by
      simp [structSync, h, hrev]
    simp only [LayoutLineWalker.sync, hs, setReversed_reversed, Bool.not_true,
      revLineSel_setRev_false, extend_fwd, extend_bwd, hrev]
    rw [mk'_bwd]
    · simp
    · rw [Cursor.cmp_lt_iff]
      simp only [not_or, not_and, not_lt]
      omega

lemma next_char_fwd (d : LayoutDoc) (sel : CursorSelection) (hrev : sel.reversed = false)
    (h : sel.end_.node < d.n) :
    LayoutLineWalker.next d sel =
      if sel.end_.node + 1 < d.n then
        some ⟨⟨sel.end_.node + 1, 0⟩, ⟨fwdEnd d (sel.end_.node + 1), 1⟩, false⟩
      else none := by
  have hsync : structSync d (CursorSelection.mk' sel.end_ sel.end_ false) =
      some (structLineSel sel.end_.node) := by
    rw [mk'_collapsed]
    simp [structSync, h]
  by_cases hlt : sel.end_.node + 1 < d.n
  · have hnext : structNext d (CursorSelection.mk' sel.end_ sel.end_ false) =
        some (structLineSel (sel.end_.node + 1)) := by
      rw [mk'_collapsed]
      simp [structNext, hlt]
    simp only [LayoutLineWalker.next, hrev, hsync, hnext, structLineSel_setRev_false,
      extend_fwd, if_pos hlt]
    rfl
  · have hnext : structNext d (CursorSelection.mk' sel.end_ sel.end_ false) = none := by
      rw [mk'_collapsed]
      simp only [structNext, structLineSel_reversed, Bool.false_eq_true, if_false]
      rw [if_neg hlt]
    simp only [LayoutLineWalker.next, hrev, hsync, hnext, if_neg hlt]

lemma next_char_bwd (d : LayoutDoc) (sel : CursorSelection) (hrev : sel.reversed = true)
    (h : sel.end_.node < d.n) :
    LayoutLineWalker.next d sel =
      if 0 < sel.end_.node then
        some ⟨⟨bwdStart d (sel.end_.node - 1), 0⟩, ⟨sel.end_.node - 1, 1⟩, false⟩
      else none := by
  have hsync : structSync d (CursorSelection.mk' sel.end_ sel.end_ true) =
      some (⟨⟨sel.end_.node, 1⟩, ⟨sel.end_.node, 0⟩, true⟩ : CursorSelection) := by
    rw [mk'_collapsed]
    simp [structSync, h]
  by_cases h0 : 0 < sel.end_.node
  · have hnext : structNext d (CursorSelection.mk' sel.end_ sel.end_ true) =
        some (⟨⟨sel.end_.node - 1, 1⟩, ⟨sel.end_.node - 1, 0⟩, true⟩ : CursorSelection) := by
      rw [mk'_collapsed]
      have hne : ¬ sel.end_.node = 0 := by omega
      simp [structNext, hne]
    simp only [LayoutLineWalker.next, hrev, hsync, hnext, revLineSel_setRev_true,
      extend_bwd, if_pos h0]
    rfl
  · have hnext : structNext d (CursorSelection.mk' sel.end_ sel.end_ true) = none := by
      rw [mk'_collapsed]
      have hz : sel.end_.node = 0 := by omega
      simp [structNext, hz]
    simp only [LayoutLineWalker.next, hrev, hsync, hnext, if_neg h0]

lemma fwdEnd_demo0 : fwdEnd demoDoc 0 = 1 := by
  rw [fwdEnd, if_pos (by decide), fwdEnd, if_neg (by decide)]

lemma fwdEnd_demo1 : fwdEnd demoDoc 1 = 1 := by
  rw [fwdEnd, if_neg (by decide)]

lemma fwdEnd_demo2 : fwdEnd demoDoc 2 = 2 := by
  rw [fwdEnd, if_neg (by decide)]

lemma bwdStart_demo0 : bwdStart demoDoc 0 = 0 := by
  rw [bwdStart, if_neg (by decide)]

lemma bwdStart_demo1 : bwdStart demoDoc 1 = 0 := by
  rw [bwdStart, if_pos (by decide), bwdStart, if_neg (by decide)]

/-- C1: the layout-line walker's extend operation on the structural-line
selection of line `k` keeps `k`'s start and merges forward exactly the
consecutive structural lines whose bounding-rectangle bottom equals (by
exact equality) the bottom of the line before them in the chain; the first
line with a different bottom is the visual line break and is discarded.
On the spec's document with bottoms `[10, 10, 20]`, `sync` on line 0 yields
the layout line spanning lines 0-1 only, and `next` from it yields exactly
line 2. -/
theorem layoutExtendMergesEqualBottoms (d : LayoutDoc) (k : Nat) (h : k < d.n) :
    extend_ d (structLineSel k) = ⟨⟨k, 0⟩, ⟨fwdEnd d k, 1⟩, false⟩ ∧
    extend_ d (⟨⟨k, 1⟩, ⟨k, 0⟩, true⟩ : CursorSelection) =
      ⟨⟨k, 1⟩, ⟨bwdStart d k, 0⟩, true⟩ ∧
    k ≤ fwdEnd d k ∧ fwdEnd d k < d.n ∧
    (∀ m, k ≤ m → m < fwdEnd d k → d.bottom (m + 1) = d.bottom m) ∧
    (fwdEnd d k + 1 < d.n → d.bottom (fwdEnd d k + 1) ≠ d.bottom (fwdEnd d k)) ∧
    LayoutLineWalker.sync demoDoc (structLineSel 0) = some ⟨⟨0, 0⟩, ⟨1, 1⟩, false⟩ ∧
    LayoutLineWalker.next demoDoc ⟨⟨0, 0⟩, ⟨1, 1⟩, false⟩ =
      some ⟨⟨2, 0⟩, ⟨2, 1⟩, false⟩ := by
  obtain ⟨h1, h2, h3, h4⟩ := fwdEnd_spec d k
  refine ⟨extend_fwd d k, extend_bwd d k, h1, h2 h, h3, fun hlt hb => h4 ⟨hlt, hb⟩, ?_, ?_⟩
  · rw [sync_char demoDoc (structLineSel 0) (by decide)]
    simp only [structLineSel_start, structLineSel_reversed, Bool.false_eq_true, if_false,
      bwdStart_demo0, fwdEnd_demo0]
  · rw [next_char_fwd demoDoc _ rfl (by decide), if_pos (by decide)]
    simp only [structLineSel_end]
    rw [fwdEnd_demo2]

/-- Witness for C1: the extend characterization instantiated on the spec's
three-line document at line 0. -/
theorem layoutExtendMergesEqualBottoms_witness :
    extend_ demoDoc (structLineSel 0) = ⟨⟨0, 0⟩, ⟨fwdEnd demoDoc 0, 1⟩, false⟩ ∧
    fwdEnd demoDoc 0 < demoDoc.n :=
  ⟨(layoutExtendMergesEqualBottoms demoDoc 0 (by decide)).1,
   (layoutExtendMergesEqualBottoms demoDoc 0 (by decide)).2.2.2.1⟩

/-- Counterexample to C2 as stated: on the `[10, 10, 20]` document, `next`
applied to the reversed structural-line selection of line 2 returns a
selection with `reversed = false`, not the input's `true`; the flag is not
propagated to the result. -/
theorem layoutNextDropsReversedFlag :
    (⟨⟨2, 1⟩, ⟨2, 0⟩, true⟩ : CursorSelection).reversed = true ∧
    (LayoutLineWalker.next demoDoc ⟨⟨2, 1⟩, ⟨2, 0⟩, true⟩).map CursorSelection.reversed =
      some false := by
  refine ⟨rfl, ?_⟩
  rw [next_char_bwd demoDoc _ rfl (by decide), if_pos (by decide)]
  rfl

/-- C2 (amended): `next` collapses the selection to its directed endpoint,
syncs the substrategy there, advances the substrategy once and extends the
result into a full layout line in the original direction, but the returned
selection is normalized with `setReversed(false)`: its reversed flag is
always `false`, not the input's flag. -/
theorem layoutNextPipeline (d : LayoutDoc) (sel : CursorSelection) :
    (∀ res, LayoutLineWalker.next d sel = some res → res.reversed = false) ∧
    (sel.reversed = false → sel.end_.node < d.n →
      LayoutLineWalker.next d sel =
        if sel.end_.node + 1 < d.n then
          some ⟨⟨sel.end_.node + 1, 0⟩, ⟨fwdEnd d (sel.end_.node + 1), 1⟩, false⟩
        else none) ∧
    (sel.reversed = true → sel.end_.node < d.n →
      LayoutLineWalker.next d sel =
        if 0 < sel.end_.node then
          some ⟨⟨bwdStart d (sel.end_.node - 1), 0⟩, ⟨sel.end_.node - 1, 1⟩, false⟩
        else none) := by
  refine ⟨?_, next_char_fwd d sel, next_char_bwd d sel⟩
  intro res hres
  simp only [LayoutLineWalker.next] at hres
  split at hres
  · exact absurd hres (by simp)
  · split at hres
    · exact absurd hres (by simp)
    · have hval := Option.some.inj hres
      rw [← hval, setReversed_reversed]

/-- Witness for C2's amended theorem: next from the first structural line of
the spec's document yields the layout line of line 1, reversed false. -/
theorem layoutNextPipeline_witness :
    LayoutLineWalker.next demoDoc (structLineSel 0) =
      some ⟨⟨1, 0⟩, ⟨fwdEnd demoDoc 1, 1⟩, false⟩ := by
  have h := (layoutNextPipeline demoDoc (structLineSel 0)).2.1 rfl (by decide)
  rw [h, if_pos (by decide)]
  simp only [structLineSel_end]

/-- C3: `sync` returns the full layout line containing the synced structural
line — spanning from the absolute start of the backward extension to the
absolute end of the forward extension — with the input's reversed flag. -/
theorem layoutSyncSpansFullLayoutLine (d : LayoutDoc) (sel : CursorSelection)
    (h : sel.start.node < d.n) :
    ∃ res, LayoutLineWalker.sync d sel = some res ∧
      res.absStart = ⟨bwdStart d sel.start.node, 0⟩ ∧
      res.absEnd = ⟨fwdEnd d sel.start.node, 1⟩ ∧
      res.reversed = sel.reversed ∧
      (extend_ d (⟨⟨sel.start.node, 1⟩, ⟨sel.start.node, 0⟩, true⟩ : CursorSelection)).absStart =
        ⟨bwdStart d sel.start.node, 0⟩ ∧
      (extend_ d (structLineSel sel.start.node)).absEnd =
        ⟨fwdEnd d sel.start.node, 1⟩ := by
  rw [sync_char d sel h]
  cases hrev : sel.reversed with
  | false =>
    simp only [Bool.false_eq_true, if_false]
    exact ⟨_, rfl, rfl, rfl, rfl, by rw [extend_bwd]; rfl, by rw [extend_fwd]; rfl⟩
  | true =>
    simp only [if_true]
    exact ⟨_, rfl, rfl, rfl, rfl, by rw [extend_bwd]; rfl, by rw [extend_fwd]; rfl⟩

/-- Witness for C3: sync from the structural-line selection of line 1 of the
spec's document spans lines 0-1. -/
theorem layoutSyncSpansFullLayoutLine_witness :
    ∃ res, LayoutLineWalker.sync demoDoc (structLineSel 1) = some res ∧
      res.absStart = ⟨bwdStart demoDoc 1, 0⟩ ∧
      res.absEnd = ⟨fwdEnd demoDoc 1, 1⟩ ∧
      res.reversed = false := by
  obtain ⟨res, h1, h2, h3, h4, -, -⟩ :=
    layoutSyncSpansFullLayoutLine demoDoc (structLineSel 1) (by decide)
  exact ⟨res, h1, h2, h3, h4⟩

/-- C4: at the document boundary in the selection's direction, the
layout-line walker's `next` returns `none` rather than wrapping, and so
does every further repetition of `next`; `sync` of a selection outside the
document also returns `none`. -/
theorem layoutNextAtBoundaryFails (d : LayoutDoc) (sel : CursorSelection) :
    (sel.reversed = false → d.n ≤ sel.end_.node + 1 →
      LayoutLineWalker.next d sel = none ∧ ∀ k, nextIter d (k + 1) sel = none) ∧
    (sel.reversed = true → sel.end_.node = 0 →
      LayoutLineWalker.next d sel = none ∧ ∀ k, nextIter d (k + 1) sel = none) ∧
    (d.n ≤ sel.start.node → LayoutLineWalker.sync d sel = none) := by
  refine ⟨?_, ?_, ?_⟩
  · intro hrev hb
    have hnone : LayoutLineWalker.next d sel = none := by
      by_cases hn : sel.end_.node < d.n
      · rw [next_char_fwd d sel hrev hn, if_neg (by omega)]
      · have hsync : structSync d (CursorSelection.mk' sel.end_ sel.end_ false) = none := by
          rw [mk'_collapsed]
          simp only [structSync]
          rw [if_neg (by simpa using hn)]
        simp only [LayoutLineWalker.next, hrev, hsync]
    exact ⟨hnone, fun k => by simp only [nextIter, hnone]⟩
  · intro hrev hz
    have hnone : LayoutLineWalker.next d sel = none := by
      by_cases hn : sel.end_.node < d.n
      · rw [next_char_bwd d sel hrev hn, if_neg (by omega)]
      · have hsync : structSync d (CursorSelection.mk' sel.end_ sel.end_ true) = none := by
          rw [mk'_collapsed]
          simp only [structSync]
          rw [if_neg (by simpa using hn)]
        simp only [LayoutLineWalker.next, hrev, hsync]
    exact ⟨hnone, fun k => by simp only [nextIter, hnone]⟩
  · intro hout
    have hsync : structSync d sel = none := by
      simp only [structSync]
      rw [if_neg (by omega)]
    simp only [LayoutLineWalker.sync, hsync]

/-- Witness for C4 on the spec's three-line document: next from the last
layout line fails, iterating next keeps failing, and sync of a detached
selection fails. -/
theorem layoutNextAtBoundaryFails_witness :
    LayoutLineWalker.next demoDoc (structLineSel 2) = none ∧
    nextIter demoDoc 1 (structLineSel 2) = none ∧
    LayoutLineWalker.sync demoDoc (structLineSel 5) = none := by
  have h2 := (layoutNextAtBoundaryFails demoDoc (structLineSel 2)).1 rfl (by decide)
  have h5 := (layoutNextAtBoundaryFails demoDoc (structLineSel 5)).2.2 (by decide)
  exact ⟨h2.1, h2.2 0, h5⟩

/-- C10 findings: for a selection the substrategy cannot sync,
`getDescription` returns the empty description sequence, but `getBraille`
does not return an empty braille line: the source dereferences the null
result of `sync` (`this.sync(sel).setReversed(false)`) before its own
null guard, so the call throws. -/
theorem layoutDescriptionEmptyBrailleThrows :
    structSync demoDoc (structLineSel 5) = none ∧
    LayoutLineWalker.getDescription demoDoc (structLineSel 0) (structLineSel 5) = [] ∧
    LayoutLineWalker.getBraille demoDoc (structLineSel 0) (structLineSel 5) =
      Except.error () := by
  refine ⟨by decide, by decide, ?_⟩
  rfl

/-- Modelled from the spec: the navigation manager as seen by the command
layer (`cvox.ChromeVox.navigationManager` is not among the provided
sources).  Manager states are abstract tokens; `next`/`prev` return the new
state and the success flag; `inTableMode`/`checkCellBoundaries` read the
state; `findNext`/`findPrevious` return the state positioned on the match,
or `none` with the state unchanged when the predicate search exhausts the
document (the spec's all-or-nothing failure policy). -/
structure NavEnv where
  next : Nat → Nat × Bool
  prev : Nat → Nat × Bool
  inTableMode : Nat → Bool
  checkCellBoundaries : Nat → Bool
  findNext : Nat → Option Nat
  findPrevious : Nat → Option Nat

/-- Stands for the spoken description of the object navigated to (its
concrete text is produced externally to the command layer). -/
def descriptionToken : String := "<description>"

/-- `cvox.ChromeVoxUserCommands.finishNavCommand`: speak the message
prefix when non-empty, then the current description. -/
def finishNavCommand (messagePrefixStr : String) : List String :=
  (if 0 < messagePrefixStr.length then [messagePrefixStr] else []) ++ [descriptionToken]

/-- `cvox.ChromeVoxUserCommands.commands['forward']`: mark the user-command
guard, move next; in table mode, when the move escaped the current cell
(`checkCellBoundaries` fails), undo it with one `previous` move and finish
with the explicit "End of cell. " message; otherwise finish normally.
Result: final manager state, new guard level, spoken messages, and the
command's return value `!navSucceeded`. -/
def commandForward (e : NavEnv) (s lvl : Nat) : Nat × Nat × List String × Bool :=
  let lvl1 := lvl + 1
  let r1 := e.next s
  if e.inTableMode r1.1 && !(e.checkCellBoundaries r1.1) then
    let r2 := e.prev r1.1
    (r2.1, lvl1, finishNavCommand "End of cell. ", !r2.2)
  else
    (r1.1, lvl1, finishNavCommand "", !r1.2)

/-- `cvox.ChromeVoxUserCommands.commands['backward']`: the mirror image of
the forward command, undoing a cell escape with one `next` move. -/
def commandBackward (e : NavEnv) (s lvl : Nat) : Nat × Nat × List String × Bool :=
  let lvl1 := lvl + 1
  let r1 := e.prev s
  if e.inTableMode r1.1 && !(e.checkCellBoundaries r1.1) then
    let r2 := e.next r1.1
    (r2.1, lvl1, finishNavCommand "End of cell. ", !r2.2)
  else
    (r1.1, lvl1, finishNavCommand "", !r1.2)

/-- `cvox.ChromeVoxUserCommands.findNextAndSpeak_`: mark the guard; when
the search fails, speak exactly the caller-supplied error string and
return; on success, step one move backward then replay one forward move
(the forward user command) before describing. -/
def findNextAndSpeak (e : NavEnv) (s lvl : Nat) (errorStr : String) :
    Nat × Nat × List String :=
  let lvl1 := lvl + 1
  match e.findNext s with
  | none => (s, lvl1, [errorStr])
  | some s1 =>
    let r := commandForward e (e.prev s1).1 lvl1
    (r.1, r.2.1, r.2.2.1)

/-- `cvox.ChromeVoxUserCommands.findPreviousAndSpeak_`: identical to the
find-next driver except for the search direction; the success path also
replays previous-then-forward. -/
def findPreviousAndSpeak (e : NavEnv) (s lvl : Nat) (errorStr : String) :
    Nat × Nat × List String :=
  let lvl1 := lvl + 1
  match e.findPrevious s with
  | none => (s, lvl1, [errorStr])
  | some s1 =>
    let r := commandForward e (e.prev s1).1 lvl1
    (r.1, r.2.1, r.2.2.1)

/-- C5: when a generic forward (or backward) move made in table mode
escapes the current cell, the command undoes it by one move in the
opposite direction, speaks the explicit "End of cell. " message first, and
returns the negation of the undo move's success. -/
theorem tableCellBoundaryUndo (e : NavEnv) (s lvl : Nat) :
    (e.inTableMode (e.next s).1 = true → e.checkCellBoundaries (e.next s).1 = false →
      commandForward e s lvl =
        ((e.prev (e.next s).1).1, lvl + 1, finishNavCommand "End of cell. ",
          !(e.prev (e.next s).1).2)) ∧
    (e.inTableMode (e.prev s).1 = true → e.checkCellBoundaries (e.prev s).1 = false →
      commandBackward e s lvl =
        ((e.next (e.prev s).1).1, lvl + 1, finishNavCommand "End of cell. ",
          !(e.next (e.prev s).1).2)) ∧
    (finishNavCommand "End of cell. ").head? = some "End of cell. " := by
  refine ⟨?_, ?_, rfl⟩
  · intro ht hc
    simp only [commandForward, ht, hc]
    rfl
  · intro ht hc
    simp only [commandBackward, ht, hc]
    rfl

/-- Concrete witness for C5: a two-state manager in table mode whose cell
check fails on state 1; the forward command from state 0 undoes back to
state 0 with the end-of-cell message. -/
def demoEnv : NavEnv where
  next := fun s => (s + 1, true)
  prev := fun s => (s - 1, true)
  inTableMode := fun _ => true
  checkCellBoundaries := fun s => decide (s = 0)
  findNext := fun s => if s = 0 then some 5 else none
  findPrevious := fun _ => none

/-- Witness for C5 on the concrete manager. -/
theorem tableCellBoundaryUndo_witness :
    commandForward demoEnv 0 0 =
      (0, 1, finishNavCommand "End of cell. ", false) :=
  (tableCellBoundaryUndo demoEnv 0 0).1 rfl rfl

/-- C6: the find-next/find-previous drivers speak exactly the
caller-supplied fallback message and navigate nowhere when the search
fails; on success they step one move backward and replay the ordinary
forward command, so the result is the stepwise-arrival observable. -/
theorem findAndSpeakContract (e : NavEnv) (s lvl : Nat) (errorStr : String) :
    (e.findNext s = none →
      findNextAndSpeak e s lvl errorStr = (s, lvl + 1, [errorStr])) ∧
    (∀ s1, e.findNext s = some s1 →
      findNextAndSpeak e s lvl errorStr =
        ((commandForward e (e.prev s1).1 (lvl + 1)).1,
         (commandForward e (e.prev s1).1 (lvl + 1)).2.1,
         (commandForward e (e.prev s1).1 (lvl + 1)).2.2.1)) ∧
    (e.findPrevious s = none →
      findPreviousAndSpeak e s lvl errorStr = (s, lvl + 1, [errorStr])) ∧
    (∀ s1, e.findPrevious s = some s1 →
      findPreviousAndSpeak e s lvl errorStr =
        ((commandForward e (e.prev s1).1 (lvl + 1)).1,
         (commandForward e (e.prev s1).1 (lvl + 1)).2.1,
         (commandForward e (e.prev s1).1 (lvl + 1)).2.2.1)) := by
  refine ⟨?_, ?_, ?_, ?_⟩
  · intro h; simp only [findNextAndSpeak, h]
  · intro s1 h; simp only [findNextAndSpeak, h]
  · intro h; simp only [findPreviousAndSpeak, h]
  · intro s1 h; simp only [findPreviousAndSpeak, h]

/-- Witness for C6 on the concrete manager: a successful find-next from
state 0 and a failed find-previous. -/
theorem findAndSpeakContract_witness :
    findNextAndSpeak demoEnv 0 0 "No more links." =
      ((commandForward demoEnv 4 1).1, (commandForward demoEnv 4 1).2.1,
        (commandForward demoEnv 4 1).2.2.1) ∧
    findPreviousAndSpeak demoEnv 0 0 "No previous link." =
      (0, 1, ["No previous link."]) :=
  ⟨(findAndSpeakContract demoEnv 0 0 "No more links.").2.1 5 rfl,
   (findAndSpeakContract demoEnv 0 0 "No previous link.").2.2.1 rfl⟩

/-- The re-entrancy guard over a timeline of `markInUserCommand_` calls:
`userCommandLevel_` starts at 0, each call at time `m` adds 1 immediately
(`+= 1`) and its `setTimeout` subtracts 1 (`-= 1`) once 100 time-units have
passed, so at time `t` the counter is the number of marks made by `t` minus
the number whose timeout has fired by `t`. -/
def userCommandLevel (marks : List Nat) (t : Nat) : Int :=
  ((marks.countP fun m => decide (m ≤ t)) : Int) -
    ((marks.countP fun m => decide (m + 100 ≤ t)) : Int)

/-- `cvox.ChromeVoxUserCommands.isInUserCommand`: busy exactly when the
guard counter is above zero. -/
def isInUserCommand (marks : List Nat) (t : Nat) : Bool :=
  decide (0 < userCommandLevel marks t)

lemma userCommandLevel_active (marks : List Nat) (t : Nat) :
    userCommandLevel marks t =
      ((marks.countP fun m => decide (m ≤ t ∧ t < m + 100)) : Int) := by
  induction marks with
  | nil => rfl
  | cons m ms ih =>
    simp only [userCommandLevel, List.countP_cons, decide_eq_true_eq] at *
    split_ifs <;> push_cast <;> omega

/-- C7: the re-entrancy guard is a nestable depth counter — at any time it
equals the number of currently active 100-unit mark regions, `isBusy` holds
exactly when it is positive, and for the two overlapping regions entered at
t=0 and t=10 the guard is busy exactly on the interval `t < 110`. -/
theorem guardCounterNestable (marks : List Nat) (t : Nat) :
    userCommandLevel marks t =
      ((marks.countP fun m => decide (m ≤ t ∧ t < m + 100)) : Int) ∧
    (isInUserCommand marks t = true ↔ 0 < userCommandLevel marks t) ∧
    isInUserCommand [0, 10] t = decide (t < 110) := by
  refine ⟨userCommandLevel_active marks t, by simp [isInUserCommand], ?_⟩
  rw [isInUserCommand, userCommandLevel_active, decide_eq_decide]
  simp only [List.countP_cons, List.countP_nil, decide_eq_true_eq]
  split_ifs <;> omega

/-- A node as seen by the predicate search layer: its tag name, its `role`
attribute, and whether it is an element (text nodes have no
`getAttribute`). -/
structure DomNode where
  tagName : String
  role : Option String
  isElement : Bool
deriving DecidableEq

/-- The per-node test of `cvox.ChromeVoxUserCommands.linkPredicate_`:
`getAttribute('role') == 'link'` (for elements) or tag name `A`. -/
def isLinkNode (nd : DomNode) : Bool :=
  (nd.isElement && nd.role == some "link") || nd.tagName == "A"

/-- `cvox.ChromeVoxUserCommands.linkPredicate_`: front-to-back scan
returning the first link node, null otherwise. -/
def linkPredicate : List DomNode → Option DomNode
  | [] => none
  | nd :: rest => if isLinkNode nd then some nd else linkPredicate rest

/-- `cvox.ChromeVoxUserCommands.notLinkPredicate_`: true exactly when the
link predicate returns null. -/
def notLinkPredicate (nodes : List DomNode) : Bool :=
  linkPredicate nodes == none

/-- The per-node test of `cvox.ChromeVoxUserCommands.headingPredicate_`:
`getAttribute('role') == 'heading'` or one of the tags `H1`..`H6`. -/
def isHeadingNode (nd : DomNode) : Bool :=
  (nd.isElement && nd.role == some "heading") ||
    (nd.tagName == "H1" || nd.tagName == "H2" || nd.tagName == "H3" ||
     nd.tagName == "H4" || nd.tagName == "H5" || nd.tagName == "H6")

/-- `cvox.ChromeVoxUserCommands.headingPredicate_`: front-to-back scan
returning the first heading node, null otherwise. -/
def headingPredicate : List DomNode → Option DomNode
  | [] => none
  | nd :: rest => if isHeadingNode nd then some nd else headingPredicate rest

/-- The `while (i--)` loop of `cvox.ChromeVoxUserCommands.containsTagName_`:
scan indices `i - 1, i - 2, ..., 0` and return the first node found with
the given tag name. -/
def containsTagNameFrom (arr : List DomNode) (tagName : String) : Nat → Option DomNode
  | 0 => none
  | i + 1 =>
    match arr[i]? with
    | some nd =>
      if nd.tagName == tagName then some nd else containsTagNameFrom arr tagName i
    | none => containsTagNameFrom arr tagName i

/-- `cvox.ChromeVoxUserCommands.containsTagName_`: back-to-front scan of
the whole array. -/
def containsTagName (arr : List DomNode) (tagName : String) : Option DomNode :=
  containsTagNameFrom arr tagName arr.length

/-- `cvox.ChromeVoxUserCommands.heading2Predicate_`. -/
def heading2Predicate (nodes : List DomNode) : Option DomNode :=
  containsTagName nodes "H2"

/-- `cvox.ChromeVoxUserCommands.tablePredicate_`. -/
def tablePredicate (nodes : List DomNode) : Option DomNode :=
  containsTagName nodes "TABLE"

/-- `cvox.ChromeVoxUserCommands.blockquotePredicate_`. -/
def blockquotePredicate (nodes : List DomNode) : Option DomNode :=
  containsTagName nodes "BLOCKQUOTE"

lemma linkPredicate_eq_find (nodes : List DomNode) :
    linkPredicate nodes = nodes.find? isLinkNode := by
  induction nodes with
  | nil => rfl
  | cons nd rest ih =>
    rw [linkPredicate, List.find?_cons]
    by_cases h : isLinkNode nd <;> simp [h, ih]

lemma headingPredicate_eq_find (nodes : List DomNode) :
    headingPredicate nodes = nodes.find? isHeadingNode := by
  induction nodes with
  | nil => rfl
  | cons nd rest ih =>
    rw [headingPredicate, List.find?_cons]
    by_cases h : isHeadingNode nd <;> simp [h, ih]

lemma containsTagNameFrom_eq (arr : List DomNode) (tag : String) :
    ∀ k, k ≤ arr.length →
      containsTagNameFrom arr tag k =
        ((arr.take k).reverse).find? (fun nd => nd.tagName == tag) := by
  intro k
  induction k with
  | zero => intro _; rfl
  | succ i ih =>
    intro hk
    have hi : i < arr.length := by omega
    rw [containsTagNameFrom, List.getElem?_eq_getElem hi, List.take_succ,
      List.getElem?_eq_getElem hi]
    simp only [Option.toList_some, List.reverse_append, List.reverse_cons,
      List.reverse_nil, List.nil_append, List.singleton_append, List.find?_cons]
    by_cases h : arr[i].tagName == tag <;> simp [h, ih (by omega)]

/-- C8: the not-link predicate matches exactly when the link predicate
returns null — equivalently, exactly when no node of the ancestor delta
satisfies the link test. -/
theorem notLinkIsLinkNegation (nodes : List DomNode) :
    (notLinkPredicate nodes = true ↔ linkPredicate nodes = none) ∧
    (notLinkPredicate nodes = true ↔ ∀ nd ∈ nodes, ¬ isLinkNode nd = true) := by
  have h : notLinkPredicate nodes = true ↔ linkPredicate nodes = none := by
    simp [notLinkPredicate]
  refine ⟨h, h.trans ?_⟩
  rw [linkPredicate_eq_find]
  exact List.find?_eq_none

/-- C9: the category predicates are stateless scans in a fixed order — the
heading and link predicates return the first match front-to-back, while the
tag-equality predicates (heading-level-N, table, blockquote) go through
`containsTagName_` and return the last-indexed match first (a back-to-front
scan). -/
theorem predicateScanOrder (nodes : List DomNode) (tag : String) :
    headingPredicate nodes = nodes.find? isHeadingNode ∧
    linkPredicate nodes = nodes.find? isLinkNode ∧
    containsTagName nodes tag = nodes.reverse.find? (fun nd => nd.tagName == tag) ∧
    heading2Predicate nodes = containsTagName nodes "H2" ∧
    tablePredicate nodes = containsTagName nodes "TABLE" ∧
    blockquotePredicate nodes = containsTagName nodes "BLOCKQUOTE" := by
  refine ⟨headingPredicate_eq_find nodes, linkPredicate_eq_find nodes, ?_, rfl, rfl, rfl⟩
  rw [containsTagName, containsTagNameFrom_eq nodes tag nodes.length le_rfl,
    List.take_length]
